import Mathlib

/-!
Verification of the UltimaOfferta backend: offer lifecycle reconciliation
(`routes/manage-offer`), the keyword/product match engine, and the
notification fan-out / retraction subsystem.

JavaScript strings are modelled as lists of characters (`Str`), restricted to
the ASCII fragment for character-class predicates (`\w`, `\p{L}\p{N}`, `\s`).
Database tables are modelled as lists of rows; SQL updates and deletes become
`List.map` / `List.filter`.  Timestamps are integers (milliseconds).
-/

namespace UltimaOfferta

/-- JavaScript strings, modelled as character lists. -/
abbrev Str := List Char

/-- Model of JS `\s` (ASCII subset): space, tab, newline, carriage return,
vertical tab, form feed. -/
def isWsChar (c : Char) : Bool :=
  c == ' ' || c == '\t' || c == '\n' || c == '\r' || c == '\x0b' || c == '\x0c'

/-- Model of the regex class `\w` (ASCII): letters, digits, underscore. -/
def isWordChar (c : Char) : Bool :=
  c.isAlphanum || c == '_'

/-- Model of the regex class `\p{L}\p{N}` on the ASCII fragment. -/
def isLetterDigit (c : Char) : Bool :=
  c.isAlphanum

/-- JS `String.prototype.toLowerCase` on the ASCII fragment. -/
def jsLower (s : Str) : Str := s.map Char.toLower

/-- JS `String.prototype.trim` (ASCII whitespace). -/
def trimStr (s : Str) : Str :=
  ((s.dropWhile isWsChar).reverse.dropWhile isWsChar).reverse

/-- JS `str.split(' ')`: split on the single space character only. -/
def splitOnSpace : Str → List Str
  | [] => [[]]
  | c :: rest =>
    if c == ' ' then [] :: splitOnSpace rest
    else
      match splitOnSpace rest with
      | [] => [[c]]
      | w :: ws => (c :: w) :: ws

/-- JS `str.replace(/[^\w\s]/g, ' ')`. -/
def stripNonWord (s : Str) : Str :=
  s.map (fun c => if isWordChar c || isWsChar c then c else ' ')

/-- JS `str.replace(/[^\p{L}\p{N}\s]/gu, ' ')` (ASCII fragment). -/
def stripNonAlnum (s : Str) : Str :=
  s.map (fun c => if isLetterDigit c || isWsChar c then c else ' ')

/-- Helper for JS `str.replace(/\s+/g, ' ')`: the flag records whether the
previous character was whitespace (in which case further whitespace is
dropped instead of emitting another space). -/
def collapseWsAux : Bool → Str → Str
  | _, [] => []
  | prevWs, c :: rest =>
    if isWsChar c then
      if prevWs then collapseWsAux true rest
      else ' ' :: collapseWsAux true rest
    else c :: collapseWsAux false rest

/-- JS `str.replace(/\s+/g, ' ')`. -/
def collapseWs (s : Str) : Str := collapseWsAux false s

/-- JS `Array.from(new Set(l))` generalised to dedup by a key function:
keeps the first occurrence of each key, preserving order (the semantics of
insertion into a JS `Set`). -/
def jsDedupByAux {α β : Type} [DecidableEq β] (f : α → β) : List α → List β → List α
  | [], _ => []
  | x :: xs, seen =>
    if f x ∈ seen then jsDedupByAux f xs seen
    else x :: jsDedupByAux f xs (f x :: seen)

/-- Dedup by key, first occurrence wins. -/
def jsDedupBy {α β : Type} [DecidableEq β] (f : α → β) (l : List α) : List α :=
  jsDedupByAux f l []

/-- JS `Array.from(new Set(l))`. -/
def jsDedup {α : Type} [DecidableEq α] (l : List α) : List α :=
  jsDedupBy id l

/-- JS `arr.join(' ')`. -/
def joinSpace : List Str → Str
  | [] => []
  | [w] => w
  | w :: ws => w ++ ' ' :: joinSpace ws

/-- Model of `utils.js` `extractWordsFromTitle`, parameterised by the minimum word
length so that the specification variant (minimum length 4) can be stated
next to the source variant (minimum length 3, from `w.length >= 3`). -/
def titleWordsMin (minLen : Nat) (title : Str) : List Str :=
  jsDedup (((splitOnSpace (stripNonWord (jsLower title))).map trimStr).filter
    (fun w => minLen ≤ w.length))

/-- Model of `utils.js` `extractWordsFromTitle`: lower-case the title, replace
non-word characters by spaces, split on spaces, trim, keep words of length
at least 3, deduplicate preserving order. -/
def extractWordsFromTitle (title : Str) : List Str :=
  titleWordsMin 3 title

/-- The normalized token sequence of `findUsersWithMatchingKeywords`:
strip punctuation to spaces, collapse whitespace runs, trim, and split on
spaces (empty normalized title yields no tokens). -/
def tokensOf (title : Str) : List Str :=
  let s := trimStr (collapseWs (stripNonAlnum title))
  if s.isEmpty then [] else splitOnSpace s

/-- JS `w.charAt(0).toUpperCase() + w.slice(1)` (ASCII fragment). -/
def capitalizeJs : Str → Str
  | [] => []
  | c :: cs => c.toUpper :: cs

/-- Adjacent two-word phrases of a token list, joined by single spaces. -/
def bigramsOf : List Str → List Str
  | a :: b :: rest => (a ++ ' ' :: b) :: bigramsOf (b :: rest)
  | _ => []

/-- Adjacent three-word phrases of a token list, joined by single spaces. -/
def trigramsOf : List Str → List Str
  | a :: b :: c :: rest => (a ++ ' ' :: (b ++ ' ' :: c)) :: trigramsOf (b :: c :: rest)
  | _ => []

/-- Candidate-key generation of `postgres.js` `findUsersWithMatchingKeywords`
(lines 480-514): single words (lower-cased, deduplicated, capped at 5, each
also in capitalized form), plus the first 5 bigrams and first 3 trigrams of
the lower-cased normalized token sequence; empty strings are dropped and the
result is deduplicated. -/
def candidateKeysOf (titleWords : List Str) (rawTitle : Option Str) : List Str :=
  let titleForPhrases := match rawTitle with
    | some t => t
    | none => joinSpace titleWords
  let toksLow := (tokensOf titleForPhrases).map jsLower
  let singleWords := (jsDedup ((titleWords.map jsLower).filter (fun w => !w.isEmpty))).take 5
  let bigramKeys := (bigramsOf toksLow).take 5
  let trigramKeys := (trigramsOf toksLow).take 3
  let candidates :=
    (singleWords.map (fun w => w :: (if 0 < w.length then [capitalizeJs w] else []))).flatten
      ++ bigramKeys ++ trigramKeys
  jsDedup (candidates.filter (fun w => !w.isEmpty))

/-- The candidate key set the route computes for an offer title: the route
passes `extractWordsFromTitle(post.title)` as `titleWords` and the raw title
as `rawTitle`. -/
def matchCandidates (title : Str) : List Str :=
  candidateKeysOf (extractWordsFromTitle title) (some title)

/-- The candidate key set as the specification describes it, parameterised
by the minimum word length: the distinct individual words of length at least
`minLen` (capped at 5, each contributed in both lower-case and capitalized
form), plus at most 5 two-word phrases and at most 3 three-word phrases
taken in order from the normalized token sequence.  With `minLen = 4` this
is the claim's "length strictly greater than 3" reading; with `minLen = 3`
it is the behaviour of the source. -/
def specCandidateKeys (minLen : Nat) (title : Str) : List Str :=
  let toksLow := (tokensOf title).map jsLower
  let words := (titleWordsMin minLen title).take 5
  jsDedup ((words.map (fun w => [w, capitalizeJs w])).flatten
    ++ (bigramsOf toksLow).take 5 ++ (trigramsOf toksLow).take 3)

/-- Favorite variants: `keyword` (key is a word/phrase) and `offer`
(key is an offer id); `favorites.type` in the schema. -/
inductive FavType
  | keyword
  | offer
deriving DecidableEq

/-- A row of the `favorites` table (the columns the match engine reads). -/
structure FavRow where
  id : Int
  uid : Str
  ftype : FavType
  key : Str
  category : Option Str := none
  store : Option Str := none
  min_price : Option Int := none
  max_price : Option Int := none
  min_discount : Option Int := none
deriving DecidableEq

/-- A row of the `offers` table, projected onto the columns the lifecycle
reconciler reads and writes (the remaining ~60 columns are opaque payload
that none of the claims mention).  `channel_id` is kept as a string, as the
route always reads it through `String(existing.channel_id || '')`. -/
structure OfferRow where
  offer_id : Str
  code : Str
  channel_id : Str
  is_expired : Bool
  is_deleted : Bool
  timestamp_expired : Option Int
  timestamp : Int
deriving DecidableEq

/-- A row of the `notifications` table as read by `hasOfferBeenNotified`. -/
structure NotifRow where
  offer_id : Str
  created_at : Int
deriving DecidableEq

/-- The datastore state the reconciler touches. -/
structure DB where
  offers : List OfferRow
  favorites : List FavRow
  notifications : List NotifRow
deriving DecidableEq

/-- Model of `ORDER BY "timestamp" DESC LIMIT 1` over a candidate list: first row of
maximal timestamp (row order inside the table models the unspecified SQL
tie order). -/
def maxByTimestamp : List OfferRow → Option OfferRow
  | [] => none
  | r :: rs =>
    match maxByTimestamp rs with
    | none => some r
    | some b => if b.timestamp > r.timestamp then some b else some r

/-- Model of `postgres.js` `getOfferByCode`: latest row for a `code`, if any. -/
def getOfferByCode (offers : List OfferRow) (code : Str) : Option OfferRow :=
  maxByTimestamp (offers.filter (fun r => r.code == code))

/-- The row object built by `buildRowFromPost` plus the `row.offer_id =
docIdToUse` override: a column is `none` when absent from the post, in
which case an UPDATE leaves the stored value unchanged. -/
structure RowPatch where
  offer_id : Str
  code : Str
  channel_id : Option Str
  is_expired : Option Bool
  is_deleted : Option Bool
  timestamp_expired : Option Int
  timestamp : Int
deriving DecidableEq

/-- The UPDATE branch of `insertOrUpdateOffer`: assignments cover exactly
the columns present in the row object, `offer_id` excepted. -/
def applyPatch (p : RowPatch) (r : OfferRow) : OfferRow :=
  { offer_id := r.offer_id
    code := p.code
    channel_id := p.channel_id.getD r.channel_id
    is_expired := p.is_expired.getD r.is_expired
    is_deleted := p.is_deleted.getD r.is_deleted
    timestamp_expired := match p.timestamp_expired with
      | some t => some t
      | none => r.timestamp_expired
    timestamp := p.timestamp }

/-- The INSERT branch of `insertOrUpdateOffer`: absent columns become SQL
NULL, which the rest of the code reads back as falsy (`toBool(NULL) =
false`, `String(NULL || '') = ''`). -/
def insertRow (p : RowPatch) : OfferRow :=
  { offer_id := p.offer_id
    code := p.code
    channel_id := p.channel_id.getD []
    is_expired := p.is_expired.getD false
    is_deleted := p.is_deleted.getD false
    timestamp_expired := p.timestamp_expired
    timestamp := p.timestamp }

/-- Model of `postgres.js` `insertOrUpdateOffer`: update in place when a row with
the same `offer_id` exists, insert otherwise. -/
def insertOrUpdateOffer (offers : List OfferRow) (p : RowPatch) : List OfferRow :=
  if offers.any (fun r => r.offer_id == p.offer_id) then
    offers.map (fun r => if r.offer_id == p.offer_id then applyPatch p r else r)
  else offers ++ [insertRow p]

/-- Seven days in milliseconds (`7 * 24 * 60 * 60 * 1000`). -/
def sevenDaysMs : Int := 7 * 24 * 60 * 60 * 1000

/-- Model of `utils.js` `deleteAtPlusDays()` with its default of 7 days. -/
def deleteAtPlusDays (now : Int) : Int := now + sevenDaysMs

/-- Model of `postgres.js` `markOfferDeleted`: set both flags and the expiry
timestamp (`deleteTs ?? nowMs()`) on every row with the given id. -/
def markOfferDeleted (now : Int) (offers : List OfferRow) (id : Str)
    (deleteTs : Option Int) : List OfferRow :=
  offers.map (fun r =>
    if r.offer_id == id then
      { r with is_deleted := true, is_expired := true,
               timestamp_expired := some (deleteTs.getD now) }
    else r)

/-- Model of `postgres.js` `hardDeleteOffer`: physically remove every row with the
given id. -/
def hardDeleteOffer (offers : List OfferRow) (id : Str) : List OfferRow :=
  offers.filter (fun r => !(r.offer_id == id))

/-- Model of `firestore.js` `findFavoritersByOffer`: distinct non-empty uids of
`offer`-type favorites whose key is the offer id (or the optional alternate
id, when it is truthy and different). -/
def findFavoritersByOffer (favorites : List FavRow) (offerId : Str)
    (altOfferId : Option Str) : List Str :=
  let keys := match altOfferId with
    | some a => if !a.isEmpty && a != offerId then [offerId, a] else [offerId]
    | none => [offerId]
  (jsDedup ((favorites.filter
      (fun f => f.ftype == FavType.offer && keys.contains f.key)).map
    (fun f => f.uid))).filter (fun u => !u.isEmpty)

/-- Model of `firestore.js` `hasOfferBeenNotified`: any notification row for the
offer created within the last 7 days. -/
def hasOfferBeenNotified (notifications : List NotifRow) (offerId : Str)
    (now : Int) : Bool :=
  notifications.any (fun n => n.offer_id == offerId && now - sevenDaysMs < n.created_at)

/-- The three ingestion event kinds the route dispatches on. -/
inductive EvType
  | POST_CREATED
  | POST_EDITED
  | POST_DELETED
deriving DecidableEq

/-- An ingestion event after the route's validation (`type`, `post`,
`post.offer_id` present): the fields of `payload.post` the reconciler
reads, with `none` modelling an absent/null JSON field.  `reqTimestamp` is
`payload.timestamp`. -/
structure Event where
  type : EvType
  offer_id : Str
  code : Str
  channel_id : Option Str
  is_expired : Option Bool
  is_deleted : Option Bool
  timestamp : Option Int
  reqTimestamp : Option Int
deriving DecidableEq

/-- Model of `getChannelPriority`: two named high-priority channels, everything else
rank 3 (lower rank = higher priority). -/
def getChannelPriority (id : Str) : Nat :=
  if id = ("-1001305107383").toList then 1
  else if id = ("-1001207516682").toList then 2
  else 3

/-- The `action` strings of the route's JSON responses. -/
inductive Action
  | missingCode
  | ignoredDeletedBecauseInFavorites
  | softDeleted
  | deletedViaCreate
  | deleteIgnored
  | skippedLowerPriority
  | created
  | softDeletedViaEdit
  | skippedLowerPriorityOnEdit
  | edited
  | skippedLowerPriorityOnDelete
  | deleted
deriving DecidableEq

/-- Outcome of one `/manage-offer` request: the datastore afterwards, the
response action, and whether notification retraction was attempted
(`withdrawNotificationsSafe` reached with a truthy offer id). -/
structure StepResult where
  db : DB
  action : Action
  withdrawAttempted : Bool
deriving DecidableEq

/-- Model of `(post.is_expired ?? false) || (post.is_deleted ?? false)`. -/
def evDeleted (ev : Event) : Bool :=
  ev.is_expired.getD false || ev.is_deleted.getD false

/-- Model of `post.timestamp ? Number(post.timestamp) : null` (0 is falsy). -/
def tsArg (ev : Event) : Option Int :=
  match ev.timestamp with
  | some t => if t == 0 then none else some t
  | none => none

/-- The value stored in the `timestamp` column: the `-1` normalisation
(`post.timestamp === -1` is replaced by `payload.timestamp`, or by the
current time when that is also `-1`) followed by
`Number(post.timestamp ?? payload.timestamp ?? nowMs())`. -/
def rowTimestamp (now : Int) (ev : Event) : Int :=
  let t1 : Option Int :=
    if ev.timestamp == some (-1) then
      (if ev.reqTimestamp == some (-1) then some now else ev.reqTimestamp)
    else ev.timestamp
  match t1 with
  | some t => t
  | none =>
    match ev.reqTimestamp with
    | some t => t
    | none => now

/-- Model of `buildRowFromPost` followed by the `row.offer_id = docIdToUse`
override, projected onto the modelled columns.  `restored` is the
`wasSoftDeleted && nowRestored` repair of the POST_EDITED branch, which
forces `is_deleted = false`, `is_expired = false`, `timestamp_expired = -1`
into the post before the row is built. -/
def buildRowFromPost (now : Int) (ev : Event) (docId : Str) (restored : Bool) : RowPatch :=
  { offer_id := docId
    code := ev.code
    channel_id := ev.channel_id
    is_expired := if restored then some false else ev.is_expired
    is_deleted := if restored then some false else ev.is_deleted
    timestamp_expired := if restored then some (-1) else none
    timestamp := rowTimestamp now ev }

/-- The `/manage-offer` route handler (`routes` module, lines 126-335),
from the channel-priority computation onwards: the app-init gate, skip
lists, Firebase auth and the LLM categorisation call are out of scope, and
notification fan-out side effects do not touch the modelled tables.  `now`
is the processing wall-clock time in milliseconds. -/
def manageOffer (now : Int) (db : DB) (ev : Event) : StepResult :=
  let channelId := ev.channel_id.getD []
  let newPriority := getChannelPriority channelId
  if ev.code.isEmpty then ⟨db, Action.missingCode, false⟩
  else
    let existing := getOfferByCode db.offers ev.code
    let existingPriority := match existing with
      | some r => getChannelPriority r.channel_id
      | none => 3
    let existingDocIsActive := match existing with
      | some r => !r.is_expired && !r.is_deleted
      | none => false
    let docIdToUse := match existing with
      | some r => r.offer_id
      | none => ev.offer_id
    match ev.type with
    | EvType.POST_CREATED =>
      if evDeleted ev then
        let wAtt := !docIdToUse.isEmpty
        if newPriority ≤ existingPriority then
          let favoriters := findFavoritersByOffer db.favorites docIdToUse none
          let notified := hasOfferBeenNotified db.notifications docIdToUse now
          if 0 < favoriters.length then
            ⟨{ db with offers := markOfferDeleted now db.offers docIdToUse (tsArg ev) },
              Action.ignoredDeletedBecauseInFavorites, wAtt⟩
          else if notified then
            ⟨{ db with offers := markOfferDeleted now db.offers docIdToUse (some (deleteAtPlusDays now)) },
              Action.softDeleted, wAtt⟩
          else
            ⟨{ db with offers := hardDeleteOffer db.offers docIdToUse },
              Action.deletedViaCreate, wAtt⟩
        else ⟨db, Action.deleteIgnored, wAtt⟩
      else
        if existing.isSome && existingDocIsActive && Nat.blt existingPriority newPriority then
          ⟨db, Action.skippedLowerPriority, false⟩
        else
          let row := buildRowFromPost now ev docIdToUse false
          ⟨{ db with offers := insertOrUpdateOffer db.offers row }, Action.created, false⟩
    | EvType.POST_EDITED =>
      if evDeleted ev then
        let wAtt := !docIdToUse.isEmpty
        if newPriority ≤ existingPriority then
          let favoriters := findFavoritersByOffer db.favorites docIdToUse none
          let notified := hasOfferBeenNotified db.notifications docIdToUse now
          if 0 < favoriters.length then
            ⟨{ db with offers := markOfferDeleted now db.offers docIdToUse (tsArg ev) },
              Action.ignoredDeletedBecauseInFavorites, wAtt⟩
          else if notified then
            ⟨{ db with offers := markOfferDeleted now db.offers docIdToUse (some (deleteAtPlusDays now)) },
              Action.softDeleted, wAtt⟩
          else
            ⟨{ db with offers := markOfferDeleted now db.offers docIdToUse (some (deleteAtPlusDays now)) },
              Action.softDeletedViaEdit, wAtt⟩
        else ⟨db, Action.deleteIgnored, wAtt⟩
      else
        if existingDocIsActive && Nat.blt existingPriority newPriority then
          ⟨db, Action.skippedLowerPriorityOnEdit, false⟩
        else
          let wasSoftDeleted := match existing with
            | some r => r.is_deleted || r.is_expired
            | none => false
          let nowRestored := !(ev.is_deleted.getD false) && !(ev.is_expired.getD false)
          let row := buildRowFromPost now ev docIdToUse (wasSoftDeleted && nowRestored)
          ⟨{ db with offers := insertOrUpdateOffer db.offers row }, Action.edited, false⟩
    | EvType.POST_DELETED =>
      let wAtt := !docIdToUse.isEmpty
      if Nat.blt existingPriority newPriority then
        ⟨db, Action.skippedLowerPriorityOnDelete, wAtt⟩
      else
        let favoriters := findFavoritersByOffer db.favorites docIdToUse none
        let notified := hasOfferBeenNotified db.notifications docIdToUse now
        if 0 < favoriters.length then
          ⟨{ db with offers := markOfferDeleted now db.offers docIdToUse (tsArg ev) },
            Action.softDeleted, wAtt⟩
        else if notified then
          ⟨{ db with offers := markOfferDeleted now db.offers docIdToUse (some (deleteAtPlusDays now)) },
            Action.softDeleted, wAtt⟩
        else
          ⟨{ db with offers := hardDeleteOffer db.offers docIdToUse },
            Action.deleted, wAtt⟩

/-- The two match kinds the match engine produces. -/
inductive MatchType
  | keyword
  | product
deriving DecidableEq

/-- One entry of the match engine result: keyword matches carry the
favorite's stored key, product matches carry the offer id. -/
structure MatchEntry where
  userId : Str
  matchType : MatchType
  keyword : Option Str
  offerId : Option Str
  favoriteId : Option Int
deriving DecidableEq

/-- JS `a || b` for an optional string (empty string is falsy). -/
def jsOrStr (o : Option Str) (alt : Str) : Str :=
  match o with
  | some s => if s.isEmpty then alt else s
  | none => alt

/-- Truthiness of an optional string. -/
def truthyStr (o : Option Str) : Bool :=
  match o with
  | some s => !s.isEmpty
  | none => false

/-- The `matchType` part of the dedup key. -/
def matchTypeStr : MatchType → Str
  | MatchType.keyword => ("keyword").toList
  | MatchType.product => ("product").toList

/-- The dedup key of `findUsersWithMatchingKeywords`:
`` `${m.userId}|${m.matchType}|${m.keyword || m.offerId || ''}` ``. -/
def matchKey (m : MatchEntry) : Str :=
  m.userId ++ '|' :: (matchTypeStr m.matchType ++ '|' :: jsOrStr m.keyword (jsOrStr m.offerId []))

/-- Structural helper for the 20-element chunking: the fuel argument starts
at the list length and strictly exceeds the number of remaining chunks, so
the zero-fuel fallback (which emits the remaining list as one chunk) is
never reached. -/
def chunksFuel : Nat → List Str → List (List Str)
  | _, [] => []
  | 0, x :: xs => [x :: xs]
  | Nat.succ n, x :: xs => (x :: xs.take 19) :: chunksFuel n (xs.drop 19)

/-- The 20-element chunking of the candidate set used to bound query size. -/
def chunksOf20 (l : List Str) : List (List Str) := chunksFuel l.length l

/-- Model of `String(s).toLowerCase().trim()`. -/
def lowTrim (s : Str) : Str := trimStr (jsLower s)

/-- The per-row metadata filter of `findUsersWithMatchingKeywords`
(lines 530-572): category and store must match case-insensitively when both
sides are truthy; the offer price/discount must satisfy the favorite's
min/max bounds when both sides are present. -/
def favRowMatchesOffer (row : FavRow) (offerCategory offerStore : Option Str)
    (offerPrice offerDiscount : Option Int) : Bool :=
  (if truthyStr row.category && truthyStr offerCategory then
     lowTrim (row.category.getD []) == lowTrim (offerCategory.getD [])
   else true) &&
  (if truthyStr row.store && truthyStr offerStore then
     lowTrim (row.store.getD []) == lowTrim (offerStore.getD [])
   else true) &&
  (match row.min_price, offerPrice with
   | some mn, some p => decide (mn ≤ p)
   | _, _ => true) &&
  (match row.max_price, offerPrice with
   | some mx, some p => decide (p ≤ mx)
   | _, _ => true) &&
  (match row.min_discount, offerDiscount with
   | some mn, some d => decide (mn ≤ d)
   | _, _ => true)

/-- Model of `postgres.js` `findUsersWithMatchingKeywords`: keyword favorites whose
lower-cased key equals some candidate (queried in 20-element chunks) and
which pass the metadata filter, then product favorites whose key is the
offer id, deduplicated by `(userId, matchType, keyword-or-offerId)` with
first occurrence winning. -/
def findUsersWithMatchingKeywords (favorites : List FavRow) (titleWords : List Str)
    (rawTitle : Option Str) (offerId : Option Str) (offerPrice offerDiscount : Option Int)
    (offerStore offerCategory : Option Str) : List MatchEntry :=
  let candidateSet := candidateKeysOf titleWords rawTitle
  let keywordMatches :=
    ((chunksOf20 candidateSet).map (fun chunk =>
      ((favorites.filter (fun r =>
          r.ftype == FavType.keyword && (chunk.map jsLower).contains (jsLower r.key))).filter
        (fun r => favRowMatchesOffer r offerCategory offerStore offerPrice offerDiscount)).map
        (fun r => { userId := r.uid, matchType := MatchType.keyword, keyword := some r.key,
                    offerId := none, favoriteId := some r.id : MatchEntry }))).flatten
  let productMatches :=
    match offerId with
    | some oid =>
      if oid.isEmpty then []
      else
        (favorites.filter (fun r => r.ftype == FavType.offer && r.key == oid)).map
          (fun r => { userId := r.uid, matchType := MatchType.product, keyword := none,
                      offerId := some oid, favoriteId := some r.id : MatchEntry })
    | none => []
  jsDedupBy matchKey (keywordMatches ++ productMatches)

/-- A row of the `users` table (the columns the fan-out reads); a `none`
column is SQL NULL. -/
structure UserRow where
  uid : Str
  superoffers : Option Bool
  favorites_products : Option Bool
  favorites_searches : Option Bool
  token_fcm : Option Str
deriving DecidableEq

/-- The preference object `firestore.js` `getUserPreferences` builds. -/
structure Prefs where
  push : Bool
  new_offers : Bool
  superFlag : Bool
  favEnabled : Bool
  favProducts : Bool
  favSearches : Bool
deriving DecidableEq

/-- Model of `firestore.js` `getUserPreferences`: derive the preference flags from
the user's row; each flag is permissive only when the stored column is
boolean `true` (`row.x === true`). -/
def getUserPreferences (users : List UserRow) (uid : Str) : Option Prefs :=
  match users.find? (fun u => u.uid == uid) with
  | none => none
  | some row =>
    let superOffers := row.superoffers == some true
    let favProducts := row.favorites_products == some true
    let favSearches := row.favorites_searches == some true
    let favoritesEnabled := favProducts || favSearches
    let pushEnabled := superOffers || favoritesEnabled
    some { push := pushEnabled, new_offers := pushEnabled, superFlag := superOffers,
           favEnabled := favoritesEnabled, favProducts := favProducts,
           favSearches := favSearches }

/-- Model of `products.js` `shouldSendNotification`. -/
def shouldSendNotification (prefs : Prefs) (matchType : MatchType) : Bool :=
  if !prefs.push || !prefs.new_offers then false
  else if !prefs.favEnabled then false
  else
    match matchType with
    | MatchType.product => prefs.favProducts
    | MatchType.keyword => prefs.favSearches

/-- Model of `firestore.js` `getUserFcmToken`: the trimmed token when the stored
token is truthy, `null` otherwise. -/
def getUserFcmToken (users : List UserRow) (uid : Str) : Option Str :=
  match users.find? (fun u => u.uid == uid) with
  | none => none
  | some row =>
    match row.token_fcm with
    | none => none
    | some t => if t.isEmpty then none else some (trimStr t)

/-- Model of `products.js` `notifyUsersAboutOffer`, projected onto the notified-uid
list it returns: a recipient is kept exactly when its preferences load, the
preference gate passes (always consulted with matchType `product`), the FCM
token is truthy, and the push send succeeds (`sendOk`).  Receipts are then
written for exactly this list. -/
def notifyUsersAboutOffer (users : List UserRow) (userIds : List Str)
    (sendOk : Str → Bool) : List Str :=
  userIds.filter (fun uid =>
    match getUserPreferences users uid with
    | none => false
    | some prefs =>
      shouldSendNotification prefs MatchType.product &&
      (match getUserFcmToken users uid with
       | none => false
       | some tok => !tok.isEmpty && sendOk uid))

/-- The JS error raised by the retraction fan-out's failure-logging line. -/
inductive JsError
  | referenceError
deriving DecidableEq

/-- One row returned by `withdrawNotificationsForOffer` (receipt join). -/
structure WRow where
  token_fcm : Option Str
  notification_id : Option Int
  target : Option Str
deriving DecidableEq

/-- Result of the batch withdrawal query of
`postgres.js` `withdrawNotificationsForOffer`. -/
structure WithdrawDbResult where
  success : Bool
  updated : Nat
  rows : List WRow
deriving DecidableEq

/-- The `{updated, sent}` result of the retraction fan-out. -/
structure WithdrawOutcome where
  updated : Nat
  sent : Nat
deriving DecidableEq

/-- Model of `products.js` `withdrawOfferNotifications`, given the batch-withdrawal
result, whether FCM credentials are available, and the per-recipient send
outcome.  When at least one send fails, the partial-failure logging line
evaluates `tokens.length` where no variable `tokens` is in scope, raising a
`ReferenceError` that rejects the whole call; this is modelled by
`Except.error JsError.referenceError`. -/
def withdrawOfferNotifications (dbRes : WithdrawDbResult) (haveCreds : Bool)
    (sendOk : WRow → Bool) : Except JsError WithdrawOutcome :=
  if !dbRes.success then Except.ok ⟨0, 0⟩
  else
    let recipients := dbRes.rows.filter (fun r => truthyStr r.token_fcm)
    if !haveCreds then Except.ok ⟨dbRes.updated, 0⟩
    else
      let outcomes := recipients.map sendOk
      let successCount := (outcomes.filter (fun b => b)).length
      let failureCount := (outcomes.filter (fun b => !b)).length
      if 0 < failureCount then Except.error JsError.referenceError
      else Except.ok ⟨dbRes.updated, successCount⟩

/-- The channel priority of the incoming event
(`getChannelPriority(String(post.channel_id || ''))`). -/
def newPriorityOf (ev : Event) : Nat :=
  getChannelPriority (ev.channel_id.getD [])

/-- The channel priority of the existing row for the event's code (3 when
no row exists). -/
def existingPriorityOf (db : DB) (ev : Event) : Nat :=
  match getOfferByCode db.offers ev.code with
  | some r => getChannelPriority r.channel_id
  | none => 3

/-- The `docIdToUse` resolution of the route: the stable id of the existing
row for the code when one exists, the event's generated id otherwise. -/
def docIdOf (db : DB) (ev : Event) : Str :=
  match getOfferByCode db.offers ev.code with
  | some r => r.offer_id
  | none => ev.offer_id

/-- Whether the event indicates the offer is expired/deleted: the expiry
flags for `CREATED`/`EDITED`; a `DELETED` event always does. -/
def indicatesDeletion (ev : Event) : Bool :=
  match ev.type with
  | EvType.POST_DELETED => true
  | _ => evDeleted ev

section Lemmas

variable {α β : Type}

theorem mapSelf {l : List α} {f : α → α} (h : ∀ a ∈ l, f a = a) : l.map f = l := by
  induction l with
  | nil => rfl
  | cons x xs ih =>
    simp only [List.map_cons]
    rw [h x (List.mem_cons_self x xs), ih (fun a ha => h a (List.mem_cons_of_mem x ha))]

theorem mapCongrMem {l : List α} {f g : α → β} (h : ∀ a ∈ l, f a = g a) :
    l.map f = l.map g := by
  induction l with
  | nil => rfl
  | cons x xs ih =>
    simp only [List.map_cons]
    rw [h x (List.mem_cons_self x xs), ih (fun a ha => h a (List.mem_cons_of_mem x ha))]

theorem mem_of_mem_jsDedupByAux [DecidableEq β] {f : α → β} {l : List α}
    {seen : List β} {a : α} (h : a ∈ jsDedupByAux f l seen) : a ∈ l := by
  induction l generalizing seen with
  | nil => simp [jsDedupByAux] at h
  | cons x xs ih =>
    simp only [jsDedupByAux] at h
    split at h
    · exact List.mem_cons_of_mem x (ih h)
    · rcases List.mem_cons.mp h with h1 | h2
      · exact h1 ▸ List.mem_cons_self x xs
      · exact List.mem_cons_of_mem x (ih h2)

theorem key_notMem_seen_of_mem_jsDedupByAux [DecidableEq β] {f : α → β} {l : List α}
    {seen : List β} {a : α} (h : a ∈ jsDedupByAux f l seen) : f a ∉ seen := by
  induction l generalizing seen with
  | nil => simp [jsDedupByAux] at h
  | cons x xs ih =>
    simp only [jsDedupByAux] at h
    split at h
    · exact ih h
    · rcases List.mem_cons.mp h with h1 | h2
      · subst h1; assumption
      · intro hmem
        exact ih h2 (List.mem_cons_of_mem _ hmem)

theorem pairwise_jsDedupByAux [DecidableEq β] (f : α → β) (l : List α) (seen : List β) :
    List.Pairwise (fun a b => f a ≠ f b) (jsDedupByAux f l seen) := by
  induction l generalizing seen with
  | nil => exact List.Pairwise.nil
  | cons x xs ih =>
    simp only [jsDedupByAux]
    split
    · exact ih _
    · refine List.Pairwise.cons ?_ (ih _)
      intro b hb
      have := key_notMem_seen_of_mem_jsDedupByAux hb
      intro heq
      exact this (heq ▸ List.mem_cons_self _ _)

theorem pairwise_jsDedupBy [DecidableEq β] (f : α → β) (l : List α) :
    List.Pairwise (fun a b => f a ≠ f b) (jsDedupBy f l) :=
  pairwise_jsDedupByAux f l []

theorem jsDedupByAux_eq_self [DecidableEq β] {f : α → β} {l : List α} {seen : List β}
    (hp : List.Pairwise (fun a b => f a ≠ f b) l) (hs : ∀ a ∈ l, f a ∉ seen) :
    jsDedupByAux f l seen = l := by
  induction l generalizing seen with
  | nil => rfl
  | cons x xs ih =>
    simp only [jsDedupByAux]
    rw [if_neg (hs x (List.mem_cons_self x xs))]
    congr 1
    refine ih (List.Pairwise.sublist (List.sublist_cons_self x xs) hp) ?_
    intro a ha hmem
    rcases List.mem_cons.mp hmem with h1 | h2
    · exact (List.pairwise_cons.mp hp).1 a ha h1.symm
    · exact hs a (List.mem_cons_of_mem x ha) h2

theorem jsDedup_idem [DecidableEq α] (l : List α) : jsDedup (jsDedup l) = jsDedup l := by
  have hp : List.Pairwise (fun a b : α => id a ≠ id b) (jsDedupBy id l) :=
    pairwise_jsDedupBy id l
  exact jsDedupByAux_eq_self hp (fun a _ h => (List.not_mem_nil _ h).elim)

theorem mem_of_mem_jsDedup [DecidableEq α] {l : List α} {a : α}
    (h : a ∈ jsDedup l) : a ∈ l :=
  mem_of_mem_jsDedupByAux h

end Lemmas

section CharLemmas

theorem char_toNat_ofNat {n : Nat} (h : n.isValidChar) : (Char.ofNat n).toNat = n := by
  simp only [Char.ofNat, h, dite_true, Char.ofNatAux, Char.toNat, UInt32.toNat,
    BitVec.toNat_ofNatLt]

theorem toLower_toLower (c : Char) : c.toLower.toLower = c.toLower := by
  unfold Char.toLower
  by_cases h : c.toNat ≥ 65 ∧ c.toNat ≤ 90
  · have hv : (c.toNat + 32).isValidChar := by
      unfold Nat.isValidChar
      left
      omega
    have ht : (Char.ofNat (c.toNat + 32)).toNat = c.toNat + 32 := char_toNat_ofNat hv
    rw [if_pos h, if_neg]
    rw [ht]
    omega
  · rw [if_neg h, if_neg h]

theorem lowerFixed_of_mem_jsLower {s : Str} {c : Char} (h : c ∈ jsLower s) :
    c.toLower = c := by
  unfold jsLower at h
  rw [List.mem_map] at h
  obtain ⟨d, _, rfl⟩ := h
  exact toLower_toLower d

theorem lowerFixed_of_mem_stripNonWord {s : Str} {c : Char}
    (hs : ∀ d ∈ s, d.toLower = d) (h : c ∈ stripNonWord s) : c.toLower = c := by
  unfold stripNonWord at h
  rw [List.mem_map] at h
  obtain ⟨d, hd, heq⟩ := h
  by_cases hcl : (isWordChar d || isWsChar d) = true
  · rw [if_pos hcl] at heq
    exact heq ▸ hs d hd
  · rw [if_neg hcl] at heq
    rw [← heq]
    decide

theorem splitOnSpace_ne_nil (s : Str) : splitOnSpace s ≠ [] := by
  cases s with
  | nil => simp [splitOnSpace]
  | cons c rest =>
    unfold splitOnSpace
    by_cases h : (c == ' ') = true
    · simp [h]
    · rw [if_neg h]
      cases hs : splitOnSpace rest <;> simp

theorem mem_of_mem_splitOnSpace {s : Str} {w : Str} {c : Char}
    (hw : w ∈ splitOnSpace s) (hc : c ∈ w) : c ∈ s := by
  induction s generalizing w with
  | nil =>
    simp only [splitOnSpace, List.mem_singleton] at hw
    subst hw
    exact absurd hc (List.not_mem_nil c)
  | cons d rest ih =>
    unfold splitOnSpace at hw
    by_cases h : (d == ' ') = true
    · rw [if_pos h] at hw
      rcases List.mem_cons.mp hw with h1 | h2
      · subst h1
        exact absurd hc (List.not_mem_nil c)
      · exact List.mem_cons_of_mem d (ih h2 hc)
    · rw [if_neg h] at hw
      cases hs : splitOnSpace rest with
      | nil => exact absurd hs (splitOnSpace_ne_nil rest)
      | cons w0 ws =>
        rw [hs] at hw
        rcases List.mem_cons.mp hw with h1 | h2
        · subst h1
          rcases List.mem_cons.mp hc with h3 | h4
          · exact h3 ▸ List.mem_cons_self d rest
          · have hw0 : w0 ∈ splitOnSpace rest := hs ▸ List.mem_cons_self w0 ws
            exact List.mem_cons_of_mem d (ih hw0 h4)
        · have hwmem : w ∈ splitOnSpace rest := hs ▸ List.mem_cons_of_mem w0 h2
          exact List.mem_cons_of_mem d (ih hwmem hc)

theorem mem_of_mem_trimStr {w : Str} {c : Char} (h : c ∈ trimStr w) : c ∈ w := by
  unfold trimStr at h
  rw [List.mem_reverse] at h
  have h1 := (List.dropWhile_sublist (l := (w.dropWhile isWsChar).reverse)
    (p := isWsChar)).subset h
  rw [List.mem_reverse] at h1
  exact (List.dropWhile_sublist (l := w) (p := isWsChar)).subset h1

theorem titleWordsMin_props {n : Nat} {title : Str} :
    ∀ w ∈ titleWordsMin n title, (∀ c ∈ w, c.toLower = c) ∧ n ≤ w.length := by
  intro w hw
  have hw1 := mem_of_mem_jsDedup hw
  rw [List.mem_filter] at hw1
  obtain ⟨hw2, hlen⟩ := hw1
  refine ⟨?_, by simpa using hlen⟩
  rw [List.mem_map] at hw2
  obtain ⟨w0, hw0, rfl⟩ := hw2
  intro c hc
  have hc0 : c ∈ w0 := mem_of_mem_trimStr hc
  have hcs : c ∈ stripNonWord (jsLower title) := mem_of_mem_splitOnSpace hw0 hc0
  exact lowerFixed_of_mem_stripNonWord (fun d hd => lowerFixed_of_mem_jsLower hd) hcs

theorem append_cons_isEmpty (a b : Str) (c : Char) : (a ++ c :: b).isEmpty = false := by
  cases a <;> rfl

theorem mem_bigramsOf_shape : ∀ {l : List Str} {k : Str}, k ∈ bigramsOf l →
    ∃ a b, k = a ++ ' ' :: b := by
  intro l
  induction l with
  | nil => intro k h; simp [bigramsOf] at h
  | cons a rest ih =>
    intro k h
    cases rest with
    | nil => simp [bigramsOf] at h
    | cons b rest2 =>
      rw [bigramsOf] at h
      rcases List.mem_cons.mp h with h1 | h2
      · exact ⟨a, b, h1⟩
      · exact ih h2

theorem mem_trigramsOf_shape : ∀ {l : List Str} {k : Str}, k ∈ trigramsOf l →
    ∃ a b, k = a ++ ' ' :: b := by
  intro l
  induction l with
  | nil => intro k h; simp [trigramsOf] at h
  | cons a rest ih =>
    intro k h
    cases rest with
    | nil => simp [trigramsOf] at h
    | cons b rest2 =>
      cases rest2 with
      | nil => simp [trigramsOf] at h
      | cons c rest3 =>
        rw [trigramsOf] at h
        rcases List.mem_cons.mp h with h1 | h2
        · exact ⟨a, b ++ ' ' :: c, h1⟩
        · exact ih h2

theorem capitalizeJs_isEmpty {w : Str} (h : w ≠ []) : (capitalizeJs w).isEmpty = false := by
  cases w with
  | nil => exact absurd rfl h
  | cons c cs => rfl

theorem not_isEmpty_of_ne_nil {w : Str} (h : w ≠ []) : (!w.isEmpty) = true := by
  cases w with
  | nil => exact absurd rfl h
  | cons c cs => rfl

end CharLemmas

section ClaimC7

/-- Claim C7 (as stated, with words of length strictly greater than 3) is
false: for the title `"ssd box"` the code's candidate key set contains the
three-letter word `"ssd"`, while the set the claim describes does not,
because `extractWordsFromTitle` keeps words with `w.length >= 3`. -/
theorem candidate_keys_gt3_cex :
    (("ssd").toList) ∈ matchCandidates (("ssd box").toList) ∧
      (("ssd").toList) ∉ specCandidateKeys 4 (("ssd box").toList) := by
  decide

/-- Claim C7 amended: for every title, the candidate key set consists of the
distinct individual words of length at least 3 (capped at 5, each
contributed in both lower-case and capitalized form), plus at most 5
two-word phrases and at most 3 three-word phrases taken in order from the
normalized token sequence. -/
theorem candidate_keys_min3 (title : Str) :
    matchCandidates title = specCandidateKeys 3 title := by
  have hword := @titleWordsMin_props 3 title
  have h1 : (titleWordsMin 3 title).map jsLower = titleWordsMin 3 title :=
    mapSelf (fun w hw => mapSelf (fun c hc => (hword w hw).1 c hc))
  have h2 : (titleWordsMin 3 title).filter (fun w => !w.isEmpty) = titleWordsMin 3 title := by
    rw [List.filter_eq_self]
    intro w hw
    refine not_isEmpty_of_ne_nil ?_
    have h5 := (hword w hw).2
    intro hnil
    subst hnil
    simp at h5
  have h3 : jsDedup (titleWordsMin 3 title) = titleWordsMin 3 title := by
    unfold titleWordsMin
    exact jsDedup_idem _
  have h4 : ((titleWordsMin 3 title).take 5).map
      (fun w => w :: (if 0 < w.length then [capitalizeJs w] else [])) =
      ((titleWordsMin 3 title).take 5).map (fun w => [w, capitalizeJs w]) := by
    refine mapCongrMem ?_
    intro w hw
    have h5 := (hword w (List.mem_of_mem_take hw)).2
    rw [if_pos (by omega)]
  simp only [matchCandidates, candidateKeysOf, specCandidateKeys, extractWordsFromTitle]
  rw [h1, h2, h3, h4]
  congr 1
  rw [List.filter_eq_self]
  intro k hk
  rcases List.mem_append.mp hk with hk1 | hk2
  · rcases List.mem_append.mp hk1 with hk3 | hk4
    · rw [List.mem_flatten] at hk3
      obtain ⟨l, hl, hkl⟩ := hk3
      rw [List.mem_map] at hl
      obtain ⟨w, hw, rfl⟩ := hl
      have hlen := (hword w (List.mem_of_mem_take hw)).2
      have hne : w ≠ [] := by
        intro hnil
        subst hnil
        simp at hlen
      rcases List.mem_cons.mp hkl with h5 | h6
      · exact h5 ▸ not_isEmpty_of_ne_nil hne
      · have h7 : k = capitalizeJs w := by simpa using h6
        subst h7
        refine not_isEmpty_of_ne_nil ?_
        intro h8
        have := capitalizeJs_isEmpty hne
        rw [h8] at this
        exact absurd this (by simp)
    · obtain ⟨a, b, rfl⟩ := mem_bigramsOf_shape (List.mem_of_mem_take hk4)
      exact not_isEmpty_of_ne_nil (by simp)
  · obtain ⟨a, b, rfl⟩ := mem_trigramsOf_shape (List.mem_of_mem_take hk2)
    exact not_isEmpty_of_ne_nil (by simp)

end ClaimC7

section ClaimC8

/-- Two keyword favorites of the same user with different keys, both
matching the title `"ssd usb"`. -/
def favsC8 : List FavRow :=
  [{ id := 1, uid := ("u1").toList, ftype := FavType.keyword, key := ("ssd").toList },
   { id := 2, uid := ("u1").toList, ftype := FavType.keyword, key := ("usb").toList }]

/-- The title of the C8 counterexample. -/
def titleC8 : Str := ("ssd usb").toList

/-- Claim C8 as stated is false: user `u1` holds two keyword favorites
(`"ssd"` and `"usb"`) whose keys both match candidate phrases of the title
`"ssd usb"`, yet the match engine result contains two entries for the pair
(`u1`, keyword), because the dedup key also includes the matched keyword. -/
theorem match_dedup_per_user_type_cex :
    (("ssd").toList) ∈ matchCandidates titleC8 ∧
    (("usb").toList) ∈ matchCandidates titleC8 ∧
    ((findUsersWithMatchingKeywords favsC8 (extractWordsFromTitle titleC8)
        (some titleC8) (some (("o1").toList)) none none none none).filter
      (fun m => m.userId == ("u1").toList && m.matchType == MatchType.keyword)).length = 2 := by
  decide

/-- Claim C8 amended: the match engine result contains at most one entry per
(user, matchType, key-or-offerId) triple — any two entries of the result
have distinct dedup keys. -/
theorem match_dedup_by_user_type_key (favorites : List FavRow) (titleWords : List Str)
    (rawTitle : Option Str) (offerId : Option Str) (offerPrice offerDiscount : Option Int)
    (offerStore offerCategory : Option Str) :
    List.Pairwise (fun a b => matchKey a ≠ matchKey b)
      (findUsersWithMatchingKeywords favorites titleWords rawTitle offerId
        offerPrice offerDiscount offerStore offerCategory) := by
  unfold findUsersWithMatchingKeywords
  exact pairwise_jsDedupBy matchKey _

end ClaimC8

section ClaimC9

/-- A receipt row with a device token, for the C9 failing input. -/
def wrowC9 : WRow :=
  { token_fcm := some (("t1").toList), notification_id := some 1, target := none }

/-- Claim C9 describes the intended behaviour, but the code is wrong: when
every send succeeds the call returns `{updated, sent}`, yet as soon as one
individual retraction send fails, the partial-failure logging line reads
`tokens.length` — a variable that does not exist in
`withdrawOfferNotifications` — so the call throws a `ReferenceError`
instead of returning a result. -/
theorem withdraw_throws_on_send_failure :
    withdrawOfferNotifications { success := true, updated := 1, rows := [wrowC9] } true
        (fun _ => true) = Except.ok { updated := 1, sent := 1 } ∧
    withdrawOfferNotifications { success := true, updated := 1, rows := [wrowC9] } true
        (fun _ => false) = Except.error JsError.referenceError :=
  ⟨rfl, rfl⟩

end ClaimC9

section ClaimC10

/-- Claim C10: a user id appears in the notified list of the favorites
fan-out only if its stored preferences load, the preference gate passes —
evaluated with matchType `product` regardless of what triggered the
fan-out, so `favorites_products` must be stored `true` — and its FCM token
is non-empty. -/
theorem notify_gate_product_prefs (users : List UserRow) (userIds : List Str)
    (sendOk : Str → Bool) (uid : Str)
    (h : uid ∈ notifyUsersAboutOffer users userIds sendOk) :
    ∃ p, getUserPreferences users uid = some p ∧
      shouldSendNotification p MatchType.product = true ∧ p.favProducts = true ∧
      ∃ t, getUserFcmToken users uid = some t ∧ t ≠ [] := by
  unfold notifyUsersAboutOffer at h
  rw [List.mem_filter] at h
  obtain ⟨-, hpred⟩ := h
  revert hpred
  cases hp : getUserPreferences users uid with
  | none => intro hpred; exact absurd hpred (by simp)
  | some p =>
    intro hpred
    cases ht : getUserFcmToken users uid with
    | none => rw [ht] at hpred; simp at hpred
    | some tok =>
      rw [ht] at hpred
      simp only [Bool.and_eq_true] at hpred
      obtain ⟨hsend, hne, -⟩ := hpred
      refine ⟨p, rfl, hsend, ?_, tok, rfl, ?_⟩
      · unfold shouldSendNotification at hsend
        split at hsend
        · exact absurd hsend (by simp)
        · split at hsend
          · exact absurd hsend (by simp)
          · simpa using hsend
      · intro hnil
        subst hnil
        simp at hne

/-- The single-user table of the C10 witness: product-favorite
notifications enabled and a device token present. -/
def usersC10w : List UserRow :=
  [{ uid := ("u1").toList, superoffers := none, favorites_products := some true,
     favorites_searches := none, token_fcm := some (("tok").toList) }]

/-- Witness for C10 at a concrete input. -/
theorem notify_gate_product_prefs_witness :
    (("u1").toList) ∈ notifyUsersAboutOffer usersC10w [("u1").toList] (fun _ => true) ∧
    (∃ p, getUserPreferences usersC10w (("u1").toList) = some p ∧
      shouldSendNotification p MatchType.product = true ∧ p.favProducts = true ∧
      ∃ t, getUserFcmToken usersC10w (("u1").toList) = some t ∧ t ≠ []) :=
  ⟨by decide, notify_gate_product_prefs usersC10w [("u1").toList] (fun _ => true)
    (("u1").toList) (by decide)⟩

end ClaimC10

section RouteLemmas

theorem isEmpty_eq_false_of_ne_nil {w : Str} (h : w ≠ []) : w.isEmpty = false := by
  cases w with
  | nil => exact absurd rfl h
  | cons c cs => rfl

theorem mem_of_maxByTimestamp {l : List OfferRow} {r : OfferRow}
    (h : maxByTimestamp l = some r) : r ∈ l := by
  induction l with
  | nil => simp [maxByTimestamp] at h
  | cons x xs ih =>
    rw [maxByTimestamp] at h
    cases hm : maxByTimestamp xs with
    | none =>
      rw [hm] at h
      injection h with h2
      exact h2 ▸ List.mem_cons_self x xs
    | some b =>
      rw [hm] at h
      have h3 : (if b.timestamp > x.timestamp then some b else some x) = some r := h
      split at h3
      · injection h3 with h2
        subst h2
        exact List.mem_cons_of_mem x (ih hm)
      · injection h3 with h2
        exact h2 ▸ List.mem_cons_self x xs

theorem getOfferByCode_mem {offers : List OfferRow} {code : Str} {r : OfferRow}
    (h : getOfferByCode offers code = some r) : r ∈ offers ∧ r.code = code := by
  unfold getOfferByCode at h
  have hm := mem_of_maxByTimestamp h
  rw [List.mem_filter] at hm
  refine ⟨hm.1, ?_⟩
  have := hm.2
  simpa using this

end RouteLemmas

section ClaimC6

/-- Claim C6: for every ingestion event that indicates the offer is
expired/deleted (the expiry flags for `CREATED`/`EDITED`; every `DELETED`
event), retraction of previously sent notifications is attempted before the
priority-arbitration decision, so it is attempted regardless of the
arbitration outcome — in particular also when the event is answered with
`delete_ignored` or a lower-priority skip. -/
theorem retraction_always_attempted (now : Int) (db : DB) (ev : Event)
    (hcode : ev.code ≠ [])
    (hid : ev.offer_id ≠ [])
    (hrows : ∀ r ∈ db.offers, r.offer_id ≠ [])
    (hdel : indicatesDeletion ev = true) :
    (manageOffer now db ev).withdrawAttempted = true := by
  have hcf : ev.code.isEmpty = false := isEmpty_eq_false_of_ne_nil hcode
  have hdoc : (match getOfferByCode db.offers ev.code with
      | some r => r.offer_id
      | none => ev.offer_id) ≠ [] := by
    cases hg : getOfferByCode db.offers ev.code with
    | none => simpa using hid
    | some r => simpa using hrows r (getOfferByCode_mem hg).1
  simp only [manageOffer]
  rw [if_neg (by simp [hcf])]
  cases hty : ev.type with
  | POST_CREATED =>
    have hd : evDeleted ev = true := by
      unfold indicatesDeletion at hdel
      rw [hty] at hdel
      exact hdel
    simp only []
    rw [if_pos hd]
    split
    · split
      · exact not_isEmpty_of_ne_nil hdoc
      · split
        · exact not_isEmpty_of_ne_nil hdoc
        · exact not_isEmpty_of_ne_nil hdoc
    · exact not_isEmpty_of_ne_nil hdoc
  | POST_EDITED =>
    have hd : evDeleted ev = true := by
      unfold indicatesDeletion at hdel
      rw [hty] at hdel
      exact hdel
    simp only []
    rw [if_pos hd]
    split
    · split
      · exact not_isEmpty_of_ne_nil hdoc
      · split
        · exact not_isEmpty_of_ne_nil hdoc
        · exact not_isEmpty_of_ne_nil hdoc
    · exact not_isEmpty_of_ne_nil hdoc
  | POST_DELETED =>
    simp only []
    split
    · exact not_isEmpty_of_ne_nil hdoc
    · split
      · exact not_isEmpty_of_ne_nil hdoc
      · split
        · exact not_isEmpty_of_ne_nil hdoc
        · exact not_isEmpty_of_ne_nil hdoc

/-- A one-row table owned by the mid-priority channel, for the C6 witness. -/
def rowC6 : OfferRow :=
  { offer_id := ("o6").toList, code := ("c6").toList,
    channel_id := ("-1001207516682").toList, is_expired := false, is_deleted := false,
    timestamp_expired := none, timestamp := 1 }

/-- A deletion event from an unknown (lowest-priority) channel, for the C6
witness: it is answered with a priority skip, yet retraction is attempted. -/
def evC6 : Event :=
  { type := EvType.POST_DELETED, offer_id := ("o6").toList, code := ("c6").toList,
    channel_id := some (("chan-low").toList), is_expired := none, is_deleted := none,
    timestamp := none, reqTimestamp := none }

/-- Witness for C6 at a concrete input: the event is skipped for priority
(`skipped: lower_priority_on_delete`) and retraction was still attempted. -/
theorem retraction_always_attempted_witness :
    (manageOffer 0 { offers := [rowC6], favorites := [], notifications := [] } evC6).action
        = Action.skippedLowerPriorityOnDelete ∧
    (manageOffer 0 { offers := [rowC6], favorites := [], notifications := [] } evC6).withdrawAttempted
        = true :=
  ⟨by decide,
   retraction_always_attempted 0 { offers := [rowC6], favorites := [], notifications := [] }
     evC6 (by decide) (by decide) (by decide) (by decide)⟩

end ClaimC6

section ClaimC2

/-- Claim C2: when an event reporting the offer active (a `CREATED` or
`EDITED` event with no expiry flags) arrives while the existing row for its
code is active, a strictly larger channel rank (lower priority) means the
event is skipped and the datastore is unchanged, while a smaller-or-equal
rank is always permitted to overwrite; unknown channel ids receive the
lowest-priority rank 3, which no channel rank exceeds. -/
theorem priority_arbitration (now : Int) (db : DB) (ev : Event) (r : OfferRow)
    (hcode : ev.code ≠ [])
    (hex : getOfferByCode db.offers ev.code = some r)
    (hexp : r.is_expired = false) (hdl : r.is_deleted = false)
    (hkind : ev.type = EvType.POST_CREATED ∨ ev.type = EvType.POST_EDITED)
    (hnd : evDeleted ev = false) :
    (∀ id : Str, id ≠ ("-1001305107383").toList → id ≠ ("-1001207516682").toList →
        getChannelPriority id = 3) ∧
    (∀ id : Str, getChannelPriority id ≤ 3) ∧
    (getChannelPriority r.channel_id < getChannelPriority (ev.channel_id.getD []) →
       (manageOffer now db ev).db = db ∧
       ((manageOffer now db ev).action = Action.skippedLowerPriority ∨
        (manageOffer now db ev).action = Action.skippedLowerPriorityOnEdit)) ∧
    (getChannelPriority (ev.channel_id.getD []) ≤ getChannelPriority r.channel_id →
       ((manageOffer now db ev).action = Action.created ∨
        (manageOffer now db ev).action = Action.edited)) := by
  have hcf : ev.code.isEmpty = false := isEmpty_eq_false_of_ne_nil hcode
  refine ⟨?_, ?_, ?_, ?_⟩
  · intro id h1 h2
    unfold getChannelPriority
    rw [if_neg h1, if_neg h2]
  · intro id
    unfold getChannelPriority
    split
    · omega
    · split <;> omega
  · intro hlt
    have hblt : Nat.blt (getChannelPriority r.channel_id)
        (getChannelPriority (ev.channel_id.getD [])) = true := by
      simp only [Nat.blt_eq]
      exact hlt
    rcases hkind with hk | hk
    · have hres : manageOffer now db ev = ⟨db, Action.skippedLowerPriority, false⟩ := by
        simp [manageOffer, hk, hex, hcf, hnd, hexp, hdl, hblt]
      rw [hres]
      exact ⟨rfl, Or.inl rfl⟩
    · have hres : manageOffer now db ev = ⟨db, Action.skippedLowerPriorityOnEdit, false⟩ := by
        simp [manageOffer, hk, hex, hcf, hnd, hexp, hdl, hblt]
      rw [hres]
      exact ⟨rfl, Or.inr rfl⟩
  · intro hle
    have hblt : Nat.blt (getChannelPriority r.channel_id)
        (getChannelPriority (ev.channel_id.getD [])) = false := by
      rw [Bool.eq_false_iff]
      intro hcontra
      rw [Nat.blt_eq] at hcontra
      omega
    rcases hkind with hk | hk
    · refine Or.inl ?_
      simp [manageOffer, hk, hex, hcf, hnd, hblt]
    · refine Or.inr ?_
      simp [manageOffer, hk, hex, hcf, hnd, hblt]

/-- An active row owned by the top-priority channel, for the C2 witness. -/
def rowC2 : OfferRow :=
  { offer_id := ("o2").toList, code := ("c2").toList,
    channel_id := ("-1001305107383").toList, is_expired := false, is_deleted := false,
    timestamp_expired := none, timestamp := 1 }

/-- An active `CREATED` event for the same code from an unknown channel,
for the C2 witness. -/
def evC2 : Event :=
  { type := EvType.POST_CREATED, offer_id := ("o2b").toList, code := ("c2").toList,
    channel_id := some (("unknown-chan").toList), is_expired := none, is_deleted := none,
    timestamp := some 2, reqTimestamp := none }

/-- Witness for C2 at a concrete input. -/
theorem priority_arbitration_witness :
    ((getOfferByCode ([rowC2] : List OfferRow) evC2.code = some rowC2) ∧
      rowC2.is_expired = false) ∧
    ((∀ id : Str, id ≠ ("-1001305107383").toList → id ≠ ("-1001207516682").toList →
        getChannelPriority id = 3) ∧
    (∀ id : Str, getChannelPriority id ≤ 3) ∧
    (getChannelPriority rowC2.channel_id < getChannelPriority (evC2.channel_id.getD []) →
       (manageOffer 5 { offers := [rowC2], favorites := [], notifications := [] } evC2).db
          = { offers := [rowC2], favorites := [], notifications := [] } ∧
       ((manageOffer 5 { offers := [rowC2], favorites := [], notifications := [] } evC2).action
            = Action.skippedLowerPriority ∨
        (manageOffer 5 { offers := [rowC2], favorites := [], notifications := [] } evC2).action
            = Action.skippedLowerPriorityOnEdit)) ∧
    (getChannelPriority (evC2.channel_id.getD []) ≤ getChannelPriority rowC2.channel_id →
       ((manageOffer 5 { offers := [rowC2], favorites := [], notifications := [] } evC2).action
            = Action.created ∨
        (manageOffer 5 { offers := [rowC2], favorites := [], notifications := [] } evC2).action
            = Action.edited))) :=
  ⟨⟨by decide, rfl⟩,
   priority_arbitration 5 { offers := [rowC2], favorites := [], notifications := [] } evC2
     rowC2 (by decide) (by decide) rfl rfl (Or.inl rfl) (by decide)⟩

end ClaimC2

section DeleteBranchLemmas

theorem getChannelPriority_le_three (id : Str) : getChannelPriority id ≤ 3 := by
  unfold getChannelPriority
  split
  · omega
  · split <;> omega

theorem markOfferDeleted_offerIds (now : Int) (offers : List OfferRow) (id : Str)
    (ts : Option Int) :
    (markOfferDeleted now offers id ts).map (fun r => r.offer_id)
      = offers.map (fun r => r.offer_id) := by
  unfold markOfferDeleted
  rw [List.map_map]
  refine mapCongrMem ?_
  intro r _
  by_cases h : r.offer_id = id
  · simp [h]
  · simp [h]

theorem markOfferDeleted_props (now : Int) (offers : List OfferRow) (id : Str)
    (ts : Option Int) :
    ∀ r ∈ markOfferDeleted now offers id ts, r.offer_id = id →
      r.is_deleted = true ∧ r.is_expired = true ∧
        r.timestamp_expired = some (ts.getD now) := by
  intro r hr hrid
  unfold markOfferDeleted at hr
  rw [List.mem_map] at hr
  obtain ⟨r0, hr0, heq⟩ := hr
  by_cases h : (r0.offer_id == id) = true
  · rw [if_pos h] at heq
    subst heq
    exact ⟨rfl, rfl, rfl⟩
  · rw [if_neg h] at heq
    subst heq
    exact absurd (by simp [hrid]) h

theorem markOfferDeleted_no_match (now : Int) {offers : List OfferRow} {id : Str}
    (ts : Option Int) (h : ∀ r ∈ offers, r.offer_id ≠ id) :
    markOfferDeleted now offers id ts = offers := by
  unfold markOfferDeleted
  refine mapSelf ?_
  intro r hr
  rw [if_neg]
  simp [h r hr]

theorem hardDeleteOffer_no_match {offers : List OfferRow} {id : Str}
    (h : ∀ r ∈ offers, r.offer_id ≠ id) : hardDeleteOffer offers id = offers := by
  unfold hardDeleteOffer
  rw [List.filter_eq_self]
  intro r hr
  simp [h r hr]

/-- The deletion path of the reconciler, characterised as one expression:
for every deletion-indicating event whose channel priority permits
overwrite, the resulting offers table is the favoriters branch
(soft delete at the event timestamp), the notified branch (soft delete at
now + 7 days), the `EDITED` fallback (also soft delete at now + 7 days), or
the hard delete, in that order. -/
theorem manageOffer_delete_branch (now : Int) (db : DB) (ev : Event)
    (hcf : ev.code.isEmpty = false)
    (hdel : indicatesDeletion ev = true)
    (hprio : getChannelPriority (ev.channel_id.getD []) ≤ existingPriorityOf db ev) :
    (manageOffer now db ev).db.offers =
      (if 0 < (findFavoritersByOffer db.favorites (docIdOf db ev) none).length then
         markOfferDeleted now db.offers (docIdOf db ev) (tsArg ev)
       else if hasOfferBeenNotified db.notifications (docIdOf db ev) now then
         markOfferDeleted now db.offers (docIdOf db ev) (some (deleteAtPlusDays now))
       else if ev.type = EvType.POST_EDITED then
         markOfferDeleted now db.offers (docIdOf db ev) (some (deleteAtPlusDays now))
       else hardDeleteOffer db.offers (docIdOf db ev)) := by
  unfold existingPriorityOf at hprio
  unfold docIdOf
  cases hty : ev.type with
  | POST_CREATED =>
    have hd : evDeleted ev = true := by
      unfold indicatesDeletion at hdel
      rw [hty] at hdel
      exact hdel
    simp only [manageOffer, hty, hd, hcf]
    rw [if_neg (by simp)]
    rw [if_pos hprio]
    by_cases hfav : 0 < (findFavoritersByOffer db.favorites
        (match getOfferByCode db.offers ev.code with
         | some r => r.offer_id
         | none => ev.offer_id) none).length
    · simp [hfav]
    · by_cases hnot : hasOfferBeenNotified db.notifications
          (match getOfferByCode db.offers ev.code with
           | some r => r.offer_id
           | none => ev.offer_id) now = true
      · simp [hfav, hnot]
      · simp [hfav, hnot]
  | POST_EDITED =>
    have hd : evDeleted ev = true := by
      unfold indicatesDeletion at hdel
      rw [hty] at hdel
      exact hdel
    simp only [manageOffer, hty, hd, hcf]
    rw [if_neg (by simp)]
    rw [if_pos hprio]
    by_cases hfav : 0 < (findFavoritersByOffer db.favorites
        (match getOfferByCode db.offers ev.code with
         | some r => r.offer_id
         | none => ev.offer_id) none).length
    · simp [hfav]
    · by_cases hnot : hasOfferBeenNotified db.notifications
          (match getOfferByCode db.offers ev.code with
           | some r => r.offer_id
           | none => ev.offer_id) now = true
      · simp [hfav, hnot]
      · simp [hfav, hnot]
  | POST_DELETED =>
    have hblt : Nat.blt (match getOfferByCode db.offers ev.code with
        | some r => getChannelPriority r.channel_id
        | none => 3) (getChannelPriority (ev.channel_id.getD [])) = false := by
      rw [Bool.eq_false_iff]
      intro hcontra
      rw [Nat.blt_eq] at hcontra
      omega
    simp only [manageOffer, hty, hcf, hblt]
    rw [if_neg (by simp)]
    rw [if_neg (by simp)]
    by_cases hfav : 0 < (findFavoritersByOffer db.favorites
        (match getOfferByCode db.offers ev.code with
         | some r => r.offer_id
         | none => ev.offer_id) none).length
    · simp [hfav]
    · by_cases hnot : hasOfferBeenNotified db.notifications
          (match getOfferByCode db.offers ev.code with
           | some r => r.offer_id
           | none => ev.offer_id) now = true
      · simp [hfav, hnot]
      · simp [hfav, hnot]

end DeleteBranchLemmas

section ClaimC1

/-- An active row for the C1 and C4 counterexamples: unknown channel
(priority 3), active flags. -/
def rowDel : OfferRow :=
  { offer_id := ("o1").toList, code := ("c1").toList, channel_id := [],
    is_expired := false, is_deleted := false, timestamp_expired := none, timestamp := 10 }

/-- An `EDITED` event reporting the offer expired, from the top-priority
channel, for the C1 counterexample. -/
def evC1x : Event :=
  { type := EvType.POST_EDITED, offer_id := ("o1").toList, code := ("c1").toList,
    channel_id := some (("-1001305107383").toList), is_expired := some true,
    is_deleted := none, timestamp := none, reqTimestamp := none }

/-- The datastore of the C1 counterexample: one row, no favorites, no
notifications. -/
def dbC1x : DB := { offers := [rowDel], favorites := [], notifications := [] }

/-- Claim C1 as stated is false: an `EDITED` deletion event with zero
product-favoriters and zero prior notifications, from a channel whose
priority permits overwrite, does not hard-delete the row — the code answers
`soft_deleted_via_edit` and the row is retained with both flags set. -/
theorem soft_vs_hard_delete_cex :
    indicatesDeletion evC1x = true ∧
    getChannelPriority (evC1x.channel_id.getD []) ≤ existingPriorityOf dbC1x evC1x ∧
    findFavoritersByOffer dbC1x.favorites (docIdOf dbC1x evC1x) none = [] ∧
    hasOfferBeenNotified dbC1x.notifications (docIdOf dbC1x evC1x) 0 = false ∧
    (manageOffer 0 dbC1x evC1x).action = Action.softDeletedViaEdit ∧
    (manageOffer 0 dbC1x evC1x).db.offers.length = 1 := by
  decide

/-- Claim C1 amended: for every deletion-indicating event whose channel
priority permits overwrite, if at least one product-favoriter exists or a
notification was sent within the 7-day lookback, the offer is soft-deleted
(all rows retained, the target row's deleted/expired flags set); with no
favoriter and no notification, `CREATED` and `DELETED` events hard-delete
the row, but an `EDITED` event also soft-deletes it — an edit never
physically removes the row. -/
theorem soft_vs_hard_delete (now : Int) (db : DB) (ev : Event)
    (hcode : ev.code ≠ [])
    (hdel : indicatesDeletion ev = true)
    (hprio : getChannelPriority (ev.channel_id.getD []) ≤ existingPriorityOf db ev) :
    ((findFavoritersByOffer db.favorites (docIdOf db ev) none ≠ [] ∨
      hasOfferBeenNotified db.notifications (docIdOf db ev) now = true ∨
      ev.type = EvType.POST_EDITED) →
      ((manageOffer now db ev).db.offers.map (fun r => r.offer_id)
          = db.offers.map (fun r => r.offer_id) ∧
       ∀ r ∈ (manageOffer now db ev).db.offers, r.offer_id = docIdOf db ev →
         r.is_deleted = true ∧ r.is_expired = true)) ∧
    ((findFavoritersByOffer db.favorites (docIdOf db ev) none = [] ∧
      hasOfferBeenNotified db.notifications (docIdOf db ev) now = false ∧
      ev.type ≠ EvType.POST_EDITED) →
      (manageOffer now db ev).db.offers
        = db.offers.filter (fun r => !(r.offer_id == docIdOf db ev))) := by
  have hcf := isEmpty_eq_false_of_ne_nil hcode
  have hchar := manageOffer_delete_branch now db ev hcf hdel hprio
  have hsoftConc : ∀ ts : Option Int,
      (markOfferDeleted now db.offers (docIdOf db ev) ts).map (fun r => r.offer_id)
          = db.offers.map (fun r => r.offer_id) ∧
      ∀ r ∈ markOfferDeleted now db.offers (docIdOf db ev) ts,
        r.offer_id = docIdOf db ev → r.is_deleted = true ∧ r.is_expired = true := by
    intro ts
    refine ⟨markOfferDeleted_offerIds now db.offers (docIdOf db ev) ts, ?_⟩
    intro r hr hrid
    exact ⟨(markOfferDeleted_props now db.offers (docIdOf db ev) ts r hr hrid).1,
      (markOfferDeleted_props now db.offers (docIdOf db ev) ts r hr hrid).2.1⟩
  constructor
  · intro hsoft
    by_cases hfav : 0 < (findFavoritersByOffer db.favorites (docIdOf db ev) none).length
    · rw [hchar, if_pos hfav]
      exact hsoftConc (tsArg ev)
    · by_cases hnot : hasOfferBeenNotified db.notifications (docIdOf db ev) now = true
      · rw [hchar, if_neg hfav, if_pos hnot]
        exact hsoftConc (some (deleteAtPlusDays now))
      · have hed : ev.type = EvType.POST_EDITED := by
          rcases hsoft with hf | hn | he
          · exact absurd (List.length_pos.mpr hf) hfav
          · exact absurd hn hnot
          · exact he
        rw [hchar, if_neg hfav, if_neg hnot, if_pos hed]
        exact hsoftConc (some (deleteAtPlusDays now))
  · rintro ⟨hfav, hnot, hne⟩
    have hfavlen : ¬ 0 < (findFavoritersByOffer db.favorites (docIdOf db ev) none).length := by
      rw [hfav]
      simp
    rw [hchar, if_neg hfavlen, if_neg (by simp [hnot]), if_neg hne]
    rfl

/-- Witness for the amended C1 at the concrete C1 input: the `EDITED`
fallback soft-deletes. -/
theorem soft_vs_hard_delete_witness :
    (evC1x.code ≠ [] ∧ indicatesDeletion evC1x = true ∧
     getChannelPriority (evC1x.channel_id.getD []) ≤ existingPriorityOf dbC1x evC1x) ∧
    (((findFavoritersByOffer dbC1x.favorites (docIdOf dbC1x evC1x) none ≠ [] ∨
      hasOfferBeenNotified dbC1x.notifications (docIdOf dbC1x evC1x) 0 = true ∨
      evC1x.type = EvType.POST_EDITED) →
      ((manageOffer 0 dbC1x evC1x).db.offers.map (fun r => r.offer_id)
          = dbC1x.offers.map (fun r => r.offer_id) ∧
       ∀ r ∈ (manageOffer 0 dbC1x evC1x).db.offers, r.offer_id = docIdOf dbC1x evC1x →
         r.is_deleted = true ∧ r.is_expired = true)) ∧
    ((findFavoritersByOffer dbC1x.favorites (docIdOf dbC1x evC1x) none = [] ∧
      hasOfferBeenNotified dbC1x.notifications (docIdOf dbC1x evC1x) 0 = false ∧
      evC1x.type ≠ EvType.POST_EDITED) →
      (manageOffer 0 dbC1x evC1x).db.offers
        = dbC1x.offers.filter (fun r => !(r.offer_id == docIdOf dbC1x evC1x)))) :=
  ⟨⟨by decide, by decide, by decide⟩,
   soft_vs_hard_delete 0 dbC1x evC1x (by decide) (by decide) (by decide)⟩

end ClaimC1

section ClaimC4

/-- A `DELETED` event carrying an explicit timestamp, for the C4
counterexample. -/
def evC4x : Event :=
  { type := EvType.POST_DELETED, offer_id := ("o1").toList, code := ("c1").toList,
    channel_id := some (("-1001305107383").toList), is_expired := none,
    is_deleted := none, timestamp := some 12345, reqTimestamp := none }

/-- The datastore of the C4 counterexample: the offer row plus a recent
notification for it, and no product-favoriters. -/
def dbC4x : DB :=
  { offers := [rowDel], favorites := [],
    notifications := [{ offer_id := ("o1").toList, created_at := -1 : NotifRow }] }

/-- Claim C4 as stated is false: this soft-deleting `DELETED` event carries
the explicit timestamp 12345, yet the stored `timestamp_expired` is the
processing time plus 7 days (604800000 for `now = 0`), because the
notified branch ignores the event timestamp. -/
theorem soft_delete_timestamp_cex :
    evC4x.timestamp = some 12345 ∧
    (manageOffer 0 dbC4x evC4x).action = Action.softDeleted ∧
    (manageOffer 0 dbC4x evC4x).db.offers.map (fun r => r.timestamp_expired)
      = [some 604800000] ∧
    (604800000 : Int) ≠ 12345 := by
  decide

/-- Claim C4 amended: when an ingestion event soft-deletes an offer, the
stored `timestamp_expired` is, in the favoriters branch, the event's
timestamp when truthy and otherwise the processing time; in the notified
branch and the `EDITED` fallback it is the processing time plus 7 days,
even when the event carries an explicit timestamp. -/
theorem soft_delete_timestamp (now : Int) (db : DB) (ev : Event)
    (hcode : ev.code ≠ [])
    (hdel : indicatesDeletion ev = true)
    (hprio : getChannelPriority (ev.channel_id.getD []) ≤ existingPriorityOf db ev)
    (hsoft : findFavoritersByOffer db.favorites (docIdOf db ev) none ≠ [] ∨
      hasOfferBeenNotified db.notifications (docIdOf db ev) now = true ∨
      ev.type = EvType.POST_EDITED) :
    ∀ r ∈ (manageOffer now db ev).db.offers, r.offer_id = docIdOf db ev →
      r.timestamp_expired =
        some (if findFavoritersByOffer db.favorites (docIdOf db ev) none ≠ [] then
          (tsArg ev).getD now
        else deleteAtPlusDays now) := by
  have hcf := isEmpty_eq_false_of_ne_nil hcode
  have hchar := manageOffer_delete_branch now db ev hcf hdel hprio
  intro r hr hrid
  by_cases hfav : findFavoritersByOffer db.favorites (docIdOf db ev) none = []
  · rw [if_neg (by simp [hfav])]
    have hfavlen : ¬ 0 < (findFavoritersByOffer db.favorites (docIdOf db ev) none).length := by
      rw [hfav]
      simp
    rw [hchar, if_neg hfavlen] at hr
    by_cases hnot : hasOfferBeenNotified db.notifications (docIdOf db ev) now = true
    · rw [if_pos hnot] at hr
      exact (markOfferDeleted_props now db.offers (docIdOf db ev)
        (some (deleteAtPlusDays now)) r hr hrid).2.2
    · have hed : ev.type = EvType.POST_EDITED := by
        rcases hsoft with hf | hn | he
        · exact absurd hfav hf
        · exact absurd hn hnot
        · exact he
      rw [if_neg hnot, if_pos hed] at hr
      exact (markOfferDeleted_props now db.offers (docIdOf db ev)
        (some (deleteAtPlusDays now)) r hr hrid).2.2
  · rw [if_pos hfav]
    rw [hchar, if_pos (List.length_pos.mpr hfav)] at hr
    exact (markOfferDeleted_props now db.offers (docIdOf db ev) (tsArg ev) r hr hrid).2.2

/-- Witness for the amended C4 at the concrete C4 input (notified branch). -/
theorem soft_delete_timestamp_witness :
    (evC4x.code ≠ [] ∧ indicatesDeletion evC4x = true ∧
     hasOfferBeenNotified dbC4x.notifications (docIdOf dbC4x evC4x) 0 = true) ∧
    (∀ r ∈ (manageOffer 0 dbC4x evC4x).db.offers, r.offer_id = docIdOf dbC4x evC4x →
      r.timestamp_expired =
        some (if findFavoritersByOffer dbC4x.favorites (docIdOf dbC4x evC4x) none ≠ [] then
          (tsArg evC4x).getD 0
        else deleteAtPlusDays 0)) :=
  ⟨⟨by decide, by decide, by decide⟩,
   soft_delete_timestamp 0 dbC4x evC4x (by decide) (by decide) (by decide)
     (Or.inr (Or.inl (by decide)))⟩

end ClaimC4

section ClaimC3

theorem insertOrUpdateOffer_insert {offers : List OfferRow} {p : RowPatch}
    (h : ∀ r ∈ offers, r.offer_id ≠ p.offer_id) :
    insertOrUpdateOffer offers p = offers ++ [insertRow p] := by
  unfold insertOrUpdateOffer
  rw [if_neg]
  intro hc
  rw [List.any_eq_true] at hc
  obtain ⟨r, hr, hbeq⟩ := hc
  exact h r hr (by simpa using hbeq)

/-- An active `EDITED` event whose code has no row, for the C3
counterexample. -/
def evC3x : Event :=
  { type := EvType.POST_EDITED, offer_id := ("x1").toList, code := ("c9").toList,
    channel_id := some (("-1001305107383").toList), is_expired := none,
    is_deleted := none, timestamp := some 5, reqTimestamp := none }

/-- Claim C3 as stated is false: an `EDITED` event reporting the offer
active, whose `code` matches no existing row, is not rejected — it inserts
a brand-new offer row (the empty table gains one row, answered `edited`). -/
theorem edited_missing_row_cex :
    getOfferByCode ([] : List OfferRow) evC3x.code = none ∧
    (manageOffer 0 { offers := [], favorites := [], notifications := [] } evC3x).action
        = Action.edited ∧
    (manageOffer 0 { offers := [], favorites := [], notifications := [] } evC3x).db.offers.length
        = 1 := by
  decide

/-- Claim C3 amended: for a `DELETED` event, or an `EDITED` event
indicating the offer expired/deleted, whose `code` has no existing row (and
whose `offer_id` matches no row either), the datastore is unchanged — the
soft/hard delete statements match no row; but an `EDITED` event reporting
the offer active inserts a new row carrying the event's `offer_id` and
`code` instead of being rejected. -/
theorem missing_row_events (now : Int) (db : DB) (ev : Event)
    (hcode : ev.code ≠ [])
    (hnone : getOfferByCode db.offers ev.code = none)
    (hfresh : ∀ r ∈ db.offers, r.offer_id ≠ ev.offer_id) :
    (ev.type = EvType.POST_DELETED → (manageOffer now db ev).db = db) ∧
    (ev.type = EvType.POST_EDITED → evDeleted ev = true → (manageOffer now db ev).db = db) ∧
    (ev.type = EvType.POST_EDITED → evDeleted ev = false →
      ∃ newRow : OfferRow, (manageOffer now db ev).db.offers = db.offers ++ [newRow] ∧
        newRow.offer_id = ev.offer_id ∧ newRow.code = ev.code) := by
  have hcf := isEmpty_eq_false_of_ne_nil hcode
  have hmk : ∀ ts, markOfferDeleted now db.offers ev.offer_id ts = db.offers :=
    fun ts => markOfferDeleted_no_match now ts hfresh
  have hhd : hardDeleteOffer db.offers ev.offer_id = db.offers :=
    hardDeleteOffer_no_match hfresh
  refine ⟨?_, ?_, ?_⟩
  · intro hty
    have hblt : Nat.blt 3 (getChannelPriority (ev.channel_id.getD [])) = false := by
      rw [Bool.eq_false_iff]
      intro hcontra
      rw [Nat.blt_eq] at hcontra
      have := getChannelPriority_le_three (ev.channel_id.getD [])
      omega
    simp only [manageOffer, hty, hcf, hnone, hblt]
    rw [if_neg (by simp)]
    rw [if_neg (by simp)]
    split
    · simp [hmk]
    · split
      · simp [hmk]
      · simp [hhd]
  · intro hty hd
    simp only [manageOffer, hty, hcf, hnone, hd]
    rw [if_neg (by simp)]
    split
    · split
      · split
        · simp [hmk]
        · split
          · simp [hmk]
          · simp [hmk]
      · rfl
    · rename_i hcontra
      exact absurd trivial hcontra
  · intro hty hd
    simp only [manageOffer, hty, hcf, hnone, hd]
    rw [if_neg (by simp)]
    rw [if_neg (by simp)]
    rw [insertOrUpdateOffer_insert hfresh]
    exact ⟨insertRow (buildRowFromPost now ev ev.offer_id (false && (!(ev.is_deleted.getD false) && !(ev.is_expired.getD false)))), rfl, rfl, rfl⟩

/-- A `DELETED` event for a code with no row, for the C3 witness. -/
def evC3w : Event :=
  { type := EvType.POST_DELETED, offer_id := ("x3").toList, code := ("c3w").toList,
    channel_id := some (("chan-low").toList), is_expired := none, is_deleted := none,
    timestamp := none, reqTimestamp := none }

/-- Witness for the amended C3 at a concrete input: a `DELETED` event with
no matching row leaves the datastore untouched. -/
theorem missing_row_events_witness :
    (getOfferByCode ([] : List OfferRow) evC3w.code = none) ∧
    ((evC3w.type = EvType.POST_DELETED →
      (manageOffer 3 { offers := [], favorites := [], notifications := [] } evC3w).db
        = { offers := [], favorites := [], notifications := [] }) ∧
    (evC3w.type = EvType.POST_EDITED → evDeleted evC3w = true →
      (manageOffer 3 { offers := [], favorites := [], notifications := [] } evC3w).db
        = { offers := [], favorites := [], notifications := [] }) ∧
    (evC3w.type = EvType.POST_EDITED → evDeleted evC3w = false →
      ∃ newRow : OfferRow,
        (manageOffer 3 { offers := [], favorites := [], notifications := [] } evC3w).db.offers
          = [] ++ [newRow] ∧
        newRow.offer_id = evC3w.offer_id ∧ newRow.code = evC3w.code)) :=
  ⟨by decide,
   missing_row_events 3 { offers := [], favorites := [], notifications := [] } evC3w
     (by decide) (by decide) (by decide)⟩

end ClaimC3

section ClaimC5

/-- Claim C5: replaying an identical active `CREATED` event twice for a
fresh `code` leaves exactly one offer row for that code: the second
processing resolves the existing row by `code`, reuses its `offer_id`, and
updates that row in place (the table does not grow), and every resulting
row keeps the original `offer_id`. -/
theorem created_replay_single_row (now now2 : Int) (favs : List FavRow)
    (notifs : List NotifRow) (ev : Event)
    (hty : ev.type = EvType.POST_CREATED)
    (hnd : evDeleted ev = false)
    (hcode : ev.code ≠ []) :
    (((manageOffer now { offers := [], favorites := favs, notifications := notifs } ev).db.offers.filter
        (fun r => r.code == ev.code)).length = 1) ∧
    (((manageOffer now2 (manageOffer now { offers := [], favorites := favs, notifications := notifs } ev).db ev).db.offers.filter
        (fun r => r.code == ev.code)).length = 1) ∧
    ((manageOffer now2 (manageOffer now { offers := [], favorites := favs, notifications := notifs } ev).db ev).db.offers.length
      = (manageOffer now { offers := [], favorites := favs, notifications := notifs } ev).db.offers.length) ∧
    (∀ r ∈ (manageOffer now2 (manageOffer now { offers := [], favorites := favs, notifications := notifs } ev).db ev).db.offers,
      r.offer_id = ev.offer_id) := by
  have hcf := isEmpty_eq_false_of_ne_nil hcode
  have hie : ev.is_expired.getD false = false := by
    unfold evDeleted at hnd
    exact (Bool.or_eq_false_iff.mp hnd).1
  have hidl : ev.is_deleted.getD false = false := by
    unfold evDeleted at hnd
    exact (Bool.or_eq_false_iff.mp hnd).2
  have h1 : manageOffer now { offers := [], favorites := favs, notifications := notifs } ev
      = ⟨{ offers := [insertRow (buildRowFromPost now ev ev.offer_id false)],
           favorites := favs, notifications := notifs }, Action.created, false⟩ := by
    simp [manageOffer, hty, hcf, hnd, getOfferByCode, maxByTimestamp, insertOrUpdateOffer]
  have h2 : getOfferByCode [insertRow (buildRowFromPost now ev ev.offer_id false)] ev.code
      = some (insertRow (buildRowFromPost now ev ev.offer_id false)) := by
    simp [getOfferByCode, maxByTimestamp, insertRow, buildRowFromPost]
  have hblt : Nat.blt (getChannelPriority (ev.channel_id.getD []))
      (getChannelPriority (ev.channel_id.getD [])) = false := by
    rw [Bool.eq_false_iff]
    intro hcontra
    rw [Nat.blt_eq] at hcontra
    omega
  have hr1exp : (insertRow (buildRowFromPost now ev ev.offer_id false)).is_expired = false := by
    simp [insertRow, buildRowFromPost, hie]
  have hr1dl : (insertRow (buildRowFromPost now ev ev.offer_id false)).is_deleted = false := by
    simp [insertRow, buildRowFromPost, hidl]
  have hr1id : (insertRow (buildRowFromPost now ev ev.offer_id false)).offer_id = ev.offer_id := rfl
  have hr1ch : (insertRow (buildRowFromPost now ev ev.offer_id false)).channel_id
      = ev.channel_id.getD [] := rfl
  have h3 : manageOffer now2 (DB.mk [insertRow (buildRowFromPost now ev ev.offer_id false)] favs notifs) ev
      = ⟨DB.mk [applyPatch (buildRowFromPost now2 ev ev.offer_id false) (insertRow (buildRowFromPost now ev ev.offer_id false))] favs notifs, Action.created, false⟩ := by
    have hpid : (buildRowFromPost now2 ev ev.offer_id false).offer_id = ev.offer_id := rfl
    simp [manageOffer, hty, hcf, hnd, h2, hblt, hr1exp, hr1dl, hr1id, hr1ch, hpid,
      insertOrUpdateOffer]
  refine ⟨?_, ?_, ?_, ?_⟩
  · rw [h1]
    simp [insertRow, buildRowFromPost]
  · rw [h1, h3]
    simp [applyPatch, insertRow, buildRowFromPost]
  · rw [h1, h3]
    rfl
  · rw [h1, h3]
    intro r hr
    rw [List.mem_singleton] at hr
    subst hr
    rfl

/-- The event of the C5 witness. -/
def evC5w : Event :=
  { type := EvType.POST_CREATED, offer_id := ("x5").toList, code := ("c5").toList,
    channel_id := some (("-1001207516682").toList), is_expired := none,
    is_deleted := none, timestamp := some 5, reqTimestamp := none }

/-- Witness for C5 at a concrete input. -/
theorem created_replay_single_row_witness :
    (((manageOffer 0 { offers := [], favorites := [], notifications := [] } evC5w).db.offers.filter
        (fun r => r.code == evC5w.code)).length = 1) ∧
    (((manageOffer 7 (manageOffer 0 { offers := [], favorites := [], notifications := [] } evC5w).db evC5w).db.offers.filter
        (fun r => r.code == evC5w.code)).length = 1) ∧
    ((manageOffer 7 (manageOffer 0 { offers := [], favorites := [], notifications := [] } evC5w).db evC5w).db.offers.length
      = (manageOffer 0 { offers := [], favorites := [], notifications := [] } evC5w).db.offers.length) ∧
    (∀ r ∈ (manageOffer 7 (manageOffer 0 { offers := [], favorites := [], notifications := [] } evC5w).db evC5w).db.offers,
      r.offer_id = evC5w.offer_id) :=
  created_replay_single_row 0 7 [] [] evC5w (by decide) (by decide) (by decide)

end ClaimC5

end UltimaOfferta
